import Mathlib

/-!
Shallow embedding of the Action Queue lifecycle engine of the repository:
  - src/pipeline/agent/models.py   (action model and auto-approval policy)
  - src/pipeline/agent/executor.py (action store and status transitions)
  - src/pipeline/agent/audit.py    (append-only audit log)
  - src/pipeline/alert_eligibility.py (anti-spam eligibility filter)

Python dicts holding actions are embedded as a structure with one field per
key; the executor's module-global store and audit log become an explicit
`ExecState` threaded through the operations; wall-clock timestamps
(`datetime.utcnow`, `time.time`) become values carried in the state or passed
as parameters, as the source itself allows for `now`.  Python floats are
embedded as rationals: the only operations performed on them in this code are
comparison, subtraction and absolute value, which are exact.
-/

namespace AgentModels

/-- Status of an action, mirroring `ActionStatus` in models.py. -/
inductive ActionStatus where
  | proposed
  | approved
  | executing
  | executed
  | rolled_back
  | rejected
deriving DecidableEq, Repr

/-- The closed enumeration of action types, mirroring `ActionType` in models.py. -/
inductive ActionType where
  | draft_po
  | create_task
  | adjust_par
  | update_delivery_eta
  | transfer_stock
  | acknowledge_alert
deriving DecidableEq, Repr

/-- The string value of a status, mirroring `ActionStatus.<X>.value`. -/
def statusStr : ActionStatus → String
  | .proposed => "proposed"
  | .approved => "approved"
  | .executing => "executing"
  | .executed => "executed"
  | .rolled_back => "rolled_back"
  | .rejected => "rejected"

/-- The string value of an action type, mirroring `ActionType.<X>.value`. -/
def actionTypeStr : ActionType → String
  | .draft_po => "draft_po"
  | .create_task => "create_task"
  | .adjust_par => "adjust_par"
  | .update_delivery_eta => "update_delivery_eta"
  | .transfer_stock => "transfer_stock"
  | .acknowledge_alert => "acknowledge_alert"

/-- The free-form `payload` dict of an action.  The source only ever reads the
keys below (via `payload.get`), so the embedding gives the payload one optional
field per key; a `none` field is a missing key. -/
structure Payload where
  ingredient : Option String := none
  quantity : Option ℚ := none
  unit : Option String := none
  due_time : Option String := none
  par_change_pct : Option ℚ := none
  notes : Option String := none
deriving DecidableEq, Repr

/-- The value of one entry of the `AUTO_APPROVE_RULES` dict in models.py:
`True`, `False`, or the string `"threshold"`. -/
inductive ApprovalRule where
  | auto
  | manual
  | threshold
deriving DecidableEq, Repr

/-- The `AUTO_APPROVE_RULES` table of models.py.  The dict has one entry per
member of the closed `ActionType` enumeration, so the Python default
(`.get(action_type, True)`) is unreachable and the table is a total match. -/
def AUTO_APPROVE_RULES : ActionType → ApprovalRule
  | .acknowledge_alert => .auto
  | .create_task => .auto
  | .draft_po => .auto
  | .adjust_par => .threshold
  | .update_delivery_eta => .manual
  | .transfer_stock => .manual

/-- `PAR_AUTO_APPROVE_MAX_PCT = 10` in models.py. -/
def PAR_AUTO_APPROVE_MAX_PCT : ℚ := 10

/-- `requires_approval(action_type, payload)` of models.py. -/
def requires_approval (action_type : ActionType) (payload : Payload) : Bool :=
  match AUTO_APPROVE_RULES action_type with
  | .auto => false
  | .manual => true
  | .threshold =>
    if action_type = ActionType.adjust_par then
      let pct_change := |payload.par_change_pct.getD 100|
      decide (PAR_AUTO_APPROVE_MAX_PCT < pct_change)
    else
      true

/-- An action dict, as built by `create_action` in models.py.  Timestamps are
embedded as naturals (a clock value), ids as strings. -/
structure Action where
  action_id : String
  action_type : ActionType
  payload : Payload
  owner_role : String
  risk_level : String
  requires_approval : Bool
  expected_impact : String
  reason : String
  status : ActionStatus
  source_alert_id : Option String
  created_at : ℕ
  updated_at : ℕ
deriving DecidableEq, Repr

/-- `create_action` of models.py.  The uuid4 `action_id` and the clock are
injected as explicit parameters; the `ActionType(action_type)` validation of
the source is subsumed by the typed `action_type` parameter. -/
def create_action (action_id : String) (now : ℕ) (action_type : ActionType)
    (payload : Payload) (owner_role risk_level expected_impact reason : String)
    (source_alert_id : Option String := none) : Action :=
  { action_id := action_id
    action_type := action_type
    payload := payload
    owner_role := owner_role
    risk_level := risk_level
    requires_approval := requires_approval action_type payload
    expected_impact := expected_impact
    reason := reason
    status := ActionStatus.proposed
    source_alert_id := source_alert_id
    created_at := now
    updated_at := now }

end AgentModels

namespace AlertEligibility

/-- One record of the alert history dict in alert_eligibility.py:
`{ last_alert_ts, confidence, days_until }`.  Records are only ever written by
`filter_eligible_alerts` itself, always with all three keys, so the fields are
total (the `.get` defaults the source applies when reading a record never
fire on self-written history). -/
structure HistRec where
  last_alert_ts : ℚ
  confidence : ℚ
  days_until : ℤ
deriving DecidableEq, Repr

/-- A risk event dict as read by `filter_eligible_alerts`: the three keys the
filter accesses, each optional because the source reads them with
`event.get(...)` defaults. -/
structure RiskEvent where
  item_id : Option String := none
  confidence : Option ℚ := none
  days_until : Option ℤ := none
deriving DecidableEq, Repr

/-- `COOLDOWN_SECONDS = 24 * 60 * 60` in alert_eligibility.py. -/
def COOLDOWN_SECONDS : ℚ := 24 * 60 * 60

/-- The alert history: `item_id → record`, the module-global `_alert_history`
dict made explicit. -/
def Hist : Type := String → Option HistRec

/-- The per-event eligibility test: the body of the first loop of
`filter_eligible_alerts` (lines 77-101 of alert_eligibility.py). -/
def eligibleEvent (hist : Hist) (now : ℚ) (event : RiskEvent) : Bool :=
  let item_id := event.item_id.getD ""
  let confidence := event.confidence.getD 0
  let days_until := event.days_until.getD 999
  match hist item_id with
  | none => true
  | some prev =>
    let elapsed := now - prev.last_alert_ts
    if COOLDOWN_SECONDS ≤ elapsed then true
    else if prev.confidence < confidence then true
    else if days_until < prev.days_until then true
    else false

/-- `_alert_history[item_id] = record`: overwrite one entry of the history. -/
def histUpd (hist : Hist) (item_id : String) (record : HistRec) : Hist :=
  fun k => if k = item_id then some record else hist k

/-- The second loop of `filter_eligible_alerts` (lines 104-110): overwrite the
history entry of every eligible event.  The source reads the three keys with
`event["..."]`, which raises `KeyError` on a missing key; that failure is
embedded as `none`. -/
def updateHistory (now : ℚ) (hist : Hist) : List RiskEvent → Option Hist
  | [] => some hist
  | event :: rest =>
    match event.item_id, event.confidence, event.days_until with
    | some item_id, some confidence, some days_until =>
      updateHistory now
        (histUpd hist item_id
          { last_alert_ts := now, confidence := confidence, days_until := days_until })
        rest
    | _, _, _ => none

/-- `filter_eligible_alerts(risk_events, now)` of alert_eligibility.py.  The
module-global history (loaded from and saved to JSON best-effort) is passed and
returned explicitly; `now` is the explicit timestamp parameter of the source. -/
def filter_eligible_alerts (hist : Hist) (risk_events : List RiskEvent)
    (now : ℚ) : Option (List RiskEvent × Hist) :=
  let eligible := risk_events.filter (eligibleEvent hist now)
  match updateHistory now hist eligible with
  | some hist' => some (eligible, hist')
  | none => none

end AlertEligibility

namespace AgentExec

open AgentModels

/-- One entry of the audit log, as built by `audit.record` in audit.py.  The
executor never passes `after_state`, so it is kept for shape but is always
`none` here.  `timestamp` is the clock value carried by the state. -/
structure AuditEntry where
  timestamp : ℕ
  action_id : String
  event : String
  actor : String
  action_snapshot : Action
  before_state : Option Action := none
  after_state : Option Action := none
  notes : String := ""
deriving DecidableEq, Repr

/-- The executor's mutable module state: the `_action_store` dict of
executor.py, the `_audit_log` list of audit.py (its in-memory list is the
authority; JSON persistence is best-effort and ignored here), and the current
clock standing in for `datetime.utcnow()`. -/
structure ExecState where
  store : String → Option Action
  auditLog : List AuditEntry
  time : ℕ

/-- The state with an empty store and an empty audit log. -/
def emptyState : ExecState :=
  { store := fun _ => none, auditLog := [], time := 0 }

/-- `audit.record(...)`: append one entry to the audit log. -/
def auditRecord (st : ExecState) (action_id : String) (event : String)
    (action_snapshot : Action) (before_state : Option Action)
    (actor : String) (notes : String) : ExecState :=
  { st with auditLog := st.auditLog ++
      [{ timestamp := st.time, action_id := action_id, event := event,
         actor := actor, action_snapshot := action_snapshot,
         before_state := before_state, after_state := none, notes := notes }] }

/-- The `_VALID_TRANSITIONS` adjacency table of executor.py; statuses absent
from the dict (`rejected`, `rolled_back`) get the empty set via
`.get(current, set())`. -/
def validTransitions : ActionStatus → List ActionStatus
  | .proposed => [.approved, .rejected]
  | .approved => [.executing]
  | .executing => [.executed, .rolled_back]
  | .executed => [.rolled_back]
  | .rolled_back => []
  | .rejected => []

/-- `new_status in allowed`: membership in the adjacency table. -/
def edgeB (current new_status : ActionStatus) : Bool :=
  decide (new_status ∈ validTransitions current)

/-- `_transition(action, new_status, actor, notes)` of executor.py.  On
success the source mutates the stored action dict in place; the embedding
returns the updated action and rewrites the store at its `action_id` (the
store is keyed by `action_id`, so this is the entry holding the mutated
object).  Returns the state, the success flag, and the action (updated on
success, untouched on failure). -/
def transition (st : ExecState) (action : Action) (new_status : ActionStatus)
    (actor : String) (notes : String) : ExecState × Bool × Action :=
  if edgeB action.status new_status then
    let a' := { action with status := new_status, updated_at := st.time }
    let st' := { st with store := fun k => if k = action.action_id then some a' else st.store k }
    (auditRecord st' action.action_id (statusStr new_status) a' (some action) actor notes,
     true, a')
  else
    (auditRecord st action.action_id "error" action none actor
      ("Invalid transition: " ++ statusStr action.status ++ " → "
        ++ statusStr new_status ++ ". " ++ notes),
     false, action)

/-- A value of the synthetic `result` dict built by `_simulate_execution`:
a string, a number, or `None` (from `payload.get` of a missing key). -/
inductive JVal where
  | s (v : String)
  | n (v : ℚ)
  | null
deriving DecidableEq, Repr

/-- The dict returned by `_simulate_execution`: a success flag and the
synthetic confirmation payload (`error` is modelled for shape; no simulated
branch ever sets it). -/
structure SimResult where
  success : Bool
  result : List (String × JVal) := []
  error : Option String := none
deriving DecidableEq, Repr

/-- The result dict returned by the four public executor operations:
`success` is always present; `error`, `action` and `exec_result` model the
keys that are present only on some paths. -/
structure OpResult where
  success : Bool
  error : Option String := none
  action : Option Action := none
  exec_result : Option SimResult := none
deriving DecidableEq, Repr

/-- Render one `JVal` the way `json.dumps` would (string quoting simplified;
only audit notes depend on this text). -/
def jvalStr : JVal → String
  | .s v => "\"" ++ v ++ "\""
  | .n v => toString v
  | .null => "null"

/-- Render a `result` dict the way `json.dumps` would, for the notes of the
`executed` audit entry. -/
def resultJson (result : List (String × JVal)) : String :=
  "\x7b" ++ String.intercalate ", "
    (result.map (fun kv => "\"" ++ kv.1 ++ "\": " ++ jvalStr kv.2)) ++ "\x7d"

/-- `_simulate_execution(action)` of executor.py.  Every branch of the
`result_map`, and the default, returns `success: True`; the default branch of
the source's `.get` is unreachable here because `action_type` is the closed
enumeration. -/
def simulate_execution (action : Action) : SimResult :=
  let payload := action.payload
  let ingredient := payload.ingredient.getD "unknown"
  match action.action_type with
  | .draft_po =>
    { success := true
      result := [("po_number", .s ("PO-" ++ (action.action_id.take 8).toUpper)),
                 ("ingredient", .s ingredient),
                 ("quantity", payload.quantity.elim JVal.null JVal.n),
                 ("status", .s "DRAFT"),
                 ("message", .s ("Draft PO created for " ++ ingredient
                   ++ ". Awaiting send approval."))] }
  | .create_task =>
    { success := true
      result := [("task_id", .s ("TASK-" ++ (action.action_id.take 8).toUpper)),
                 ("ingredient", .s ingredient),
                 ("assigned_to", .s action.owner_role),
                 ("message", .s ("Task created: " ++ payload.notes.getD "No details"))] }
  | .adjust_par =>
    { success := true
      result := [("ingredient", .s ingredient),
                 ("par_change_pct", .n (payload.par_change_pct.getD 0)),
                 ("message", .s ("Par level adjusted by "
                   ++ toString (payload.par_change_pct.getD 0) ++ "% for "
                   ++ ingredient ++ "."))] }
  | .update_delivery_eta =>
    { success := true
      result := [("ingredient", .s ingredient),
                 ("new_eta", payload.due_time.elim JVal.null JVal.s),
                 ("message", .s ("Delivery ETA updated for " ++ ingredient ++ "."))] }
  | .transfer_stock =>
    { success := true
      result := [("ingredient", .s ingredient),
                 ("quantity", payload.quantity.elim JVal.null JVal.n),
                 ("message", .s ("Stock transfer initiated for " ++ ingredient ++ "."))] }
  | .acknowledge_alert =>
    { success := true
      result := [("ingredient", .s ingredient),
                 ("message", .s ("Alert acknowledged for " ++ ingredient ++ "."))] }

/-- `store_actions(actions)` of executor.py: register each action in the store
under its `action_id`, later list entries overwriting earlier ones. -/
def store_actions (st : ExecState) (actions : List Action) : ExecState :=
  { st with store :=
      actions.foldl (fun s a => fun k => if k = a.action_id then some a else s k) st.store }

/-- `get_action(action_id)` of executor.py. -/
def get_action (st : ExecState) (action_id : String) : Option Action :=
  st.store action_id

/-- `approve_action(action_id, actor)` of executor.py.  The source's error
messages quote statuses with single quotes; the quotes are dropped here, the
message text being otherwise the same. -/
def approve_action (st : ExecState) (action_id : String)
    (actor : String := "user") : ExecState × OpResult :=
  match st.store action_id with
  | none =>
    (st, { success := false, error := some ("Action " ++ action_id ++ " not found.") })
  | some action =>
    if action.status ≠ ActionStatus.proposed then
      (st, { success := false,
             error := some ("Action is " ++ statusStr action.status ++ ", not proposed.") })
    else
      let t := transition st action ActionStatus.approved actor ""
      (t.1, { success := t.2.1, action := some t.2.2 })

/-- `reject_action(action_id, actor, reason)` of executor.py. -/
def reject_action (st : ExecState) (action_id : String)
    (actor : String := "user") (reason : String := "") : ExecState × OpResult :=
  match st.store action_id with
  | none =>
    (st, { success := false, error := some ("Action " ++ action_id ++ " not found.") })
  | some action =>
    if action.status ≠ ActionStatus.proposed then
      (st, { success := false,
             error := some ("Action is " ++ statusStr action.status ++ ", not proposed.") })
    else
      let t := transition st action ActionStatus.rejected actor reason
      (t.1, { success := t.2.1, action := some t.2.2 })

/-- `execute_action(action_id, actor)` of executor.py: transition to
`executing` (result discarded, as in the source), simulate, then transition to
`executed` on simulated success or to `rolled_back` on simulated failure. -/
def execute_action (st : ExecState) (action_id : String)
    (actor : String := "system") : ExecState × OpResult :=
  match st.store action_id with
  | none =>
    (st, { success := false, error := some ("Action " ++ action_id ++ " not found.") })
  | some action =>
    if action.status ≠ ActionStatus.approved then
      (st, { success := false,
             error := some ("Action is " ++ statusStr action.status ++ ", not approved.") })
    else
      let t1 := transition st action ActionStatus.executing actor ""
      let exec_result := simulate_execution t1.2.2
      let t2 :=
        if exec_result.success then
          transition t1.1 t1.2.2 ActionStatus.executed actor (resultJson exec_result.result)
        else
          transition t1.1 t1.2.2 ActionStatus.rolled_back actor
            ("Execution failed: " ++ exec_result.error.getD "unknown")
      (t2.1, { success := exec_result.success, action := some t2.2.2,
               exec_result := some exec_result })

/-- `rollback_action(action_id, actor, reason)` of executor.py. -/
def rollback_action (st : ExecState) (action_id : String)
    (actor : String := "user") (reason : String := "") : ExecState × OpResult :=
  match st.store action_id with
  | none =>
    (st, { success := false, error := some ("Action " ++ action_id ++ " not found.") })
  | some action =>
    if action.status ≠ ActionStatus.executing ∧ action.status ≠ ActionStatus.executed then
      (st, { success := false,
             error := some ("Action is " ++ statusStr action.status ++ ", cannot rollback.") })
    else
      let t := transition st action ActionStatus.rolled_back actor reason
      (t.1, { success := t.2.1, action := some t.2.2 })

/-- One entry of the `auto_processed` list of `auto_approve_and_execute`. -/
structure ProcEntry where
  action_id : String
  action_type : ActionType
  status : ActionStatus
  exec_success : Bool
deriving DecidableEq, Repr

/-- The dict returned by `auto_approve_and_execute`. -/
structure AutoResult where
  auto_processed : List ProcEntry
  needs_review : List Action
  summary : String
deriving DecidableEq, Repr

/-- The loop of `auto_approve_and_execute`.  The source appends to two local
lists while iterating; consing the head's contribution onto the recursive
result yields the same lists in the same order, with the identical sequence of
store operations.  The `status` recorded in a `ProcEntry` is read from the
loop's own action value, as the source reads `action["status"]` from the dict
it was handed (at the real call sites that dict is the store's own entry, so
the source observes the post-execution status there). -/
def autoLoop (st : ExecState) (actor : String) :
    List Action → ExecState × List ProcEntry × List Action
  | [] => (st, [], [])
  | action :: rest =>
    if action.requires_approval then
      let r := autoLoop st actor rest
      (r.1, r.2.1, action :: r.2.2)
    else
      let ap := approve_action st action.action_id actor
      if ap.2.success then
        let ex := execute_action ap.1 action.action_id actor
        let r := autoLoop ex.1 actor rest
        (r.1, { action_id := action.action_id, action_type := action.action_type,
                status := action.status, exec_success := ex.2.success } :: r.2.1,
         r.2.2)
      else
        let r := autoLoop ap.1 actor rest
        (r.1, r.2.1, action :: r.2.2)

/-- `auto_approve_and_execute(actions, actor)` of executor.py. -/
def auto_approve_and_execute (st : ExecState) (actions : List Action)
    (actor : String := "auto-approve") : ExecState × AutoResult :=
  let r := autoLoop st actor actions
  (r.1, { auto_processed := r.2.1, needs_review := r.2.2,
          summary := toString r.2.1.length ++ " auto-executed, "
            ++ toString r.2.2.length ++ " awaiting approval." })

/-- One call to one of the four public single-action executor operations,
with its arguments. -/
inductive ExecOp where
  | approve (action_id actor : String)
  | reject (action_id actor reason : String)
  | execute (action_id actor : String)
  | rollback (action_id actor reason : String)
deriving DecidableEq, Repr

/-- The `action_id` argument of an operation. -/
def ExecOp.opId : ExecOp → String
  | .approve action_id _ => action_id
  | .reject action_id _ _ => action_id
  | .execute action_id _ => action_id
  | .rollback action_id _ _ => action_id

/-- The status an operation asks `_transition` to move the action to:
`approved`, `rejected`, `executing` (the first transition of `execute_action`),
or `rolled_back`. -/
def ExecOp.targetStatus : ExecOp → ActionStatus
  | .approve _ _ => ActionStatus.approved
  | .reject _ _ _ => ActionStatus.rejected
  | .execute _ _ => ActionStatus.executing
  | .rollback _ _ _ => ActionStatus.rolled_back

/-- Dispatch one single-action operation. -/
def runExecOp (st : ExecState) : ExecOp → ExecState × OpResult
  | .approve action_id actor => approve_action st action_id actor
  | .reject action_id actor reason => reject_action st action_id actor reason
  | .execute action_id actor => execute_action st action_id actor
  | .rollback action_id actor reason => rollback_action st action_id actor reason

/-- One call to any state-mutating executor entry point. -/
inductive AgentOp where
  | storeOp (actions : List Action)
  | exec (op : ExecOp)
  | autoProcess (actions : List Action) (actor : String)
deriving Repr

/-- Run one executor entry point, keeping only the state. -/
def runOp (st : ExecState) : AgentOp → ExecState
  | .storeOp actions => store_actions st actions
  | .exec op => (runExecOp st op).1
  | .autoProcess actions actor => (auto_approve_and_execute st actions actor).1

/-- Run a sequence of executor entry points in order. -/
def runOps (st : ExecState) (ops : List AgentOp) : ExecState :=
  ops.foldl runOp st

/-- Side condition of one entry point: `store_actions` is called with freshly
created actions only — status `proposed` and an `action_id` not yet in the
store (`create_action` assigns a fresh uuid4). -/
def opOkB (st : ExecState) : AgentOp → Bool
  | .storeOp actions =>
    actions.all (fun a =>
      decide (a.status = ActionStatus.proposed) && decide (st.store a.action_id = none))
  | _ => true

/-- Side condition of a sequence, each call checked in the state it runs in. -/
def opsOkB : ExecState → List AgentOp → Bool
  | _, [] => true
  | st, op :: rest => opOkB st op && opsOkB (runOp st op) rest

/-- Store well-formedness: every entry is keyed by its own `action_id`, as
`store_actions` guarantees (`_action_store[a["action_id"]] = a`). -/
def StoreWF (st : ExecState) : Prop :=
  ∀ id a, st.store id = some a → a.action_id = id

/-- One edge of the `_VALID_TRANSITIONS` adjacency table. -/
def Edge (s t : ActionStatus) : Prop :=
  edgeB s t = true

instance (s t : ActionStatus) : Decidable (Edge s t) :=
  inferInstanceAs (Decidable (edgeB s t = true))

/-- Following zero or more edges of the adjacency table. -/
def Reach : ActionStatus → ActionStatus → Prop :=
  Relation.ReflTransGen Edge

/-- Evolution of stores: every action present in the first state is still
present in the second, with a status reachable along adjacency edges. -/
def Evolves (s s' : ExecState) : Prop :=
  ∀ k b, s.store k = some b → ∃ b', s'.store k = some b' ∧ Reach b.status b'.status

/-- A concrete action fixture for evaluating the executor on explicit inputs. -/
def sampleAction (id : String) (s : ActionStatus) : Action :=
  { action_id := id
    action_type := ActionType.create_task
    payload := {}
    owner_role := "Kitchen"
    risk_level := "low"
    requires_approval := true
    expected_impact := ""
    reason := ""
    status := s
    source_alert_id := none
    created_at := 0
    updated_at := 0 }

/-- A concrete one-action executor state fixture with an empty audit log. -/
def sampleState (id : String) (s : ActionStatus) : ExecState :=
  { store := fun k => if k = id then some (sampleAction id s) else none
    auditLog := []
    time := 0 }

end AgentExec

namespace AgentModels

/-- C2: for every action type of the closed enumeration and every payload,
`requires_approval` computed at creation matches the policy table:
acknowledge_alert, create_task and draft_po are auto-approvable;
update_delivery_eta and transfer_stock always require approval; adjust_par is
auto-approvable exactly when the absolute par change is at most 10 percent,
so a change of exactly 10 is auto-approvable and 10.01 requires approval. -/
theorem claim_C2_auto_approval_policy_table (p : Payload) (q : ℚ)
    (hq : p.par_change_pct = some q) :
    requires_approval ActionType.acknowledge_alert p = false ∧
    requires_approval ActionType.create_task p = false ∧
    requires_approval ActionType.draft_po p = false ∧
    requires_approval ActionType.update_delivery_eta p = true ∧
    requires_approval ActionType.transfer_stock p = true ∧
    (requires_approval ActionType.adjust_par p = false ↔ |q| ≤ PAR_AUTO_APPROVE_MAX_PCT) ∧
    requires_approval ActionType.adjust_par { p with par_change_pct := some 10 } = false ∧
    requires_approval ActionType.adjust_par { p with par_change_pct := some (1001/100) }
      = true := by
  refine ⟨rfl, rfl, rfl, rfl, rfl, ?_, ?_, ?_⟩
  · simp [requires_approval, AUTO_APPROVE_RULES, hq]
  · simp [requires_approval, AUTO_APPROVE_RULES, PAR_AUTO_APPROVE_MAX_PCT]
  · simp [requires_approval, AUTO_APPROVE_RULES, PAR_AUTO_APPROVE_MAX_PCT]
    rw [abs_of_pos (by norm_num)]
    norm_num

/-- Witness for C2 at the concrete payload with `par_change_pct = 10`. -/
theorem claim_C2_witness :
    requires_approval ActionType.acknowledge_alert { par_change_pct := some 10 } = false ∧
    requires_approval ActionType.create_task { par_change_pct := some 10 } = false ∧
    requires_approval ActionType.draft_po { par_change_pct := some 10 } = false ∧
    requires_approval ActionType.update_delivery_eta { par_change_pct := some 10 } = true ∧
    requires_approval ActionType.transfer_stock { par_change_pct := some 10 } = true ∧
    (requires_approval ActionType.adjust_par { par_change_pct := some 10 } = false ↔
      |(10 : ℚ)| ≤ PAR_AUTO_APPROVE_MAX_PCT) ∧
    requires_approval ActionType.adjust_par { par_change_pct := some 10 } = false ∧
    requires_approval ActionType.adjust_par { par_change_pct := some (1001/100) } = true :=
  claim_C2_auto_approval_policy_table { par_change_pct := some 10 } 10 rfl

/-- C9 (implicit): when the payload does not contain the key
`par_change_pct`, an adjust_par action is treated as a 100 percent change, so
`requires_approval` evaluates to true. -/
theorem claim_C9_missing_par_change_requires_approval (p : Payload)
    (h : p.par_change_pct = none) :
    requires_approval ActionType.adjust_par p = true := by
  simp [requires_approval, AUTO_APPROVE_RULES, h, PAR_AUTO_APPROVE_MAX_PCT]
  norm_num

/-- Witness for C9 at the empty payload. -/
theorem claim_C9_witness :
    requires_approval ActionType.adjust_par {} = true :=
  claim_C9_missing_par_change_requires_approval {} rfl

end AgentModels

namespace AlertEligibility

/-- C4: after a first call admits an event, an identical event within 24 hours
is suppressed (empty result, history entry untouched), and an identical event
at least 24 hours later is re-admitted, overwriting the history entry with the
new timestamp. -/
theorem claim_C4_cooldown_suppression_and_readmission (h0 : Hist) (i : String)
    (c : ℚ) (d : ℤ) (n1 n2 : ℚ)
    (helig : eligibleEvent h0 n1 ⟨some i, some c, some d⟩ = true) :
    filter_eligible_alerts h0 [⟨some i, some c, some d⟩] n1
        = some ([⟨some i, some c, some d⟩], histUpd h0 i ⟨n1, c, d⟩) ∧
    histUpd h0 i ⟨n1, c, d⟩ i = some ⟨n1, c, d⟩ ∧
    (n2 - n1 < COOLDOWN_SECONDS →
      filter_eligible_alerts (histUpd h0 i ⟨n1, c, d⟩) [⟨some i, some c, some d⟩] n2
        = some ([], histUpd h0 i ⟨n1, c, d⟩)) ∧
    (COOLDOWN_SECONDS ≤ n2 - n1 →
      filter_eligible_alerts (histUpd h0 i ⟨n1, c, d⟩) [⟨some i, some c, some d⟩] n2
          = some ([⟨some i, some c, some d⟩], histUpd (histUpd h0 i ⟨n1, c, d⟩) i ⟨n2, c, d⟩) ∧
      histUpd (histUpd h0 i ⟨n1, c, d⟩) i ⟨n2, c, d⟩ i = some ⟨n2, c, d⟩) := by
  refine ⟨?_, ?_, ?_, ?_⟩
  · simp [filter_eligible_alerts, List.filter, helig, updateHistory]
  · simp [histUpd]
  · intro hlt
    have helig2 : eligibleEvent (histUpd h0 i ⟨n1, c, d⟩) n2 ⟨some i, some c, some d⟩
        = false := by
      simp [eligibleEvent, histUpd, not_le.mpr hlt, lt_irrefl]
    simp [filter_eligible_alerts, List.filter, helig2, updateHistory]
  · intro hge
    have helig2 : eligibleEvent (histUpd h0 i ⟨n1, c, d⟩) n2 ⟨some i, some c, some d⟩
        = true := by
      simp [eligibleEvent, histUpd, hge]
    exact ⟨by simp [filter_eligible_alerts, List.filter, helig2, updateHistory],
      by simp [histUpd]⟩

/-- Witness for C4: a first alert for item "chicken" at time 0, suppressed at
time 3600 and re-admitted at time 90000. -/
theorem claim_C4_witness :
    filter_eligible_alerts (fun _ => none) [⟨some "chicken", some 1, some 3⟩] 0
        = some ([⟨some "chicken", some 1, some 3⟩], histUpd (fun _ => none) "chicken" ⟨0, 1, 3⟩) ∧
    filter_eligible_alerts (histUpd (fun _ => none) "chicken" ⟨0, 1, 3⟩)
        [⟨some "chicken", some 1, some 3⟩] 3600
        = some ([], histUpd (fun _ => none) "chicken" ⟨0, 1, 3⟩) ∧
    filter_eligible_alerts (histUpd (fun _ => none) "chicken" ⟨0, 1, 3⟩)
        [⟨some "chicken", some 1, some 3⟩] 90000
        = some ([⟨some "chicken", some 1, some 3⟩],
            histUpd (histUpd (fun _ => none) "chicken" ⟨0, 1, 3⟩) "chicken" ⟨90000, 1, 3⟩) :=
  ⟨(claim_C4_cooldown_suppression_and_readmission (fun _ => none) "chicken" 1 3 0 3600 rfl).1,
   (claim_C4_cooldown_suppression_and_readmission (fun _ => none) "chicken" 1 3 0 3600 rfl).2.2.1
     (by norm_num [COOLDOWN_SECONDS]),
   ((claim_C4_cooldown_suppression_and_readmission (fun _ => none) "chicken" 1 3 0 90000 rfl).2.2.2
     (by norm_num [COOLDOWN_SECONDS])).1⟩

/-- C5: within the 24-hour cooldown window, an event with the stored
`days_until` but strictly higher confidence is re-admitted, an event with the
stored confidence but strictly lower `days_until` is re-admitted, and an event
matching the stored record in both fields is suppressed. -/
theorem claim_C5_confidence_or_urgency_readmission (h : Hist) (i : String)
    (ts c0 : ℚ) (d0 : ℤ) (now c : ℚ) (d : ℤ)
    (hrec : h i = some ⟨ts, c0, d0⟩) (hwin : now - ts < COOLDOWN_SECONDS) :
    (c0 < c → filter_eligible_alerts h [⟨some i, some c, some d0⟩] now
        = some ([⟨some i, some c, some d0⟩], histUpd h i ⟨now, c, d0⟩)) ∧
    (d < d0 → filter_eligible_alerts h [⟨some i, some c0, some d⟩] now
        = some ([⟨some i, some c0, some d⟩], histUpd h i ⟨now, c0, d⟩)) ∧
    (filter_eligible_alerts h [⟨some i, some c0, some d0⟩] now = some ([], h) ∧
      h i = some ⟨ts, c0, d0⟩) := by
  refine ⟨?_, ?_, ?_, hrec⟩
  · intro hc
    have he : eligibleEvent h now ⟨some i, some c, some d0⟩ = true := by
      simp [eligibleEvent, hrec, hc]
    simp [filter_eligible_alerts, List.filter, he, updateHistory]
  · intro hd
    have he : eligibleEvent h now ⟨some i, some c0, some d⟩ = true := by
      simp [eligibleEvent, hrec, hd]
    simp [filter_eligible_alerts, List.filter, he, updateHistory]
  · have he : eligibleEvent h now ⟨some i, some c0, some d0⟩ = false := by
      simp [eligibleEvent, hrec, not_le.mpr hwin, lt_irrefl]
    simp [filter_eligible_alerts, List.filter, he, updateHistory]

/-- Witness for C5: stored record for "salmon" at time 0 with confidence 1 and
days_until 5, probed at time 100 with confidence 2, with days_until 4, and
with the identical record. -/
theorem claim_C5_witness :
    filter_eligible_alerts (histUpd (fun _ => none) "salmon" ⟨0, 1, 5⟩)
        [⟨some "salmon", some 2, some 5⟩] 100
        = some ([⟨some "salmon", some 2, some 5⟩],
            histUpd (histUpd (fun _ => none) "salmon" ⟨0, 1, 5⟩) "salmon" ⟨100, 2, 5⟩) ∧
    filter_eligible_alerts (histUpd (fun _ => none) "salmon" ⟨0, 1, 5⟩)
        [⟨some "salmon", some 1, some 4⟩] 100
        = some ([⟨some "salmon", some 1, some 4⟩],
            histUpd (histUpd (fun _ => none) "salmon" ⟨0, 1, 5⟩) "salmon" ⟨100, 1, 4⟩) ∧
    filter_eligible_alerts (histUpd (fun _ => none) "salmon" ⟨0, 1, 5⟩)
        [⟨some "salmon", some 1, some 5⟩] 100
        = some ([], histUpd (fun _ => none) "salmon" ⟨0, 1, 5⟩) :=
  ⟨(claim_C5_confidence_or_urgency_readmission (histUpd (fun _ => none) "salmon" ⟨0, 1, 5⟩)
      "salmon" 0 1 5 100 2 5 rfl (by norm_num [COOLDOWN_SECONDS])).1 (by decide),
   (claim_C5_confidence_or_urgency_readmission (histUpd (fun _ => none) "salmon" ⟨0, 1, 5⟩)
      "salmon" 0 1 5 100 1 4 rfl (by norm_num [COOLDOWN_SECONDS])).2.1 (by decide),
   (claim_C5_confidence_or_urgency_readmission (histUpd (fun _ => none) "salmon" ⟨0, 1, 5⟩)
      "salmon" 0 1 5 100 1 5 rfl (by norm_num [COOLDOWN_SECONDS])).2.2.1⟩

/-- C10 (implicit): within one call, each event is judged against the history
as it stood before the call, so two events for the same fresh item are both
admitted in one batch, and the final history entry holds the fields of the
later one. -/
theorem claim_C10_batch_evaluated_against_precall_history (h0 : Hist) (i : String)
    (c1 c2 : ℚ) (d1 d2 : ℤ) (now : ℚ) (hnone : h0 i = none) :
    filter_eligible_alerts h0
        [⟨some i, some c1, some d1⟩, ⟨some i, some c2, some d2⟩] now
        = some ([⟨some i, some c1, some d1⟩, ⟨some i, some c2, some d2⟩],
            histUpd (histUpd h0 i ⟨now, c1, d1⟩) i ⟨now, c2, d2⟩) ∧
    histUpd (histUpd h0 i ⟨now, c1, d1⟩) i ⟨now, c2, d2⟩ i = some ⟨now, c2, d2⟩ := by
  have he1 : eligibleEvent h0 now ⟨some i, some c1, some d1⟩ = true := by
    simp [eligibleEvent, hnone]
  have he2 : eligibleEvent h0 now ⟨some i, some c2, some d2⟩ = true := by
    simp [eligibleEvent, hnone]
  exact ⟨by simp [filter_eligible_alerts, List.filter, he1, he2, updateHistory],
    by simp [histUpd]⟩

/-- Witness for C10: two identical events for a fresh item "rice" in one call. -/
theorem claim_C10_witness :
    filter_eligible_alerts (fun _ => none)
        [⟨some "rice", some 1, some 2⟩, ⟨some "rice", some 1, some 2⟩] 7
        = some ([⟨some "rice", some 1, some 2⟩, ⟨some "rice", some 1, some 2⟩],
            histUpd (histUpd (fun _ => none) "rice" ⟨7, 1, 2⟩) "rice" ⟨7, 1, 2⟩) ∧
    histUpd (histUpd (fun _ => none) "rice" ⟨7, 1, 2⟩) "rice" ⟨7, 1, 2⟩ "rice"
        = some ⟨7, 1, 2⟩ :=
  claim_C10_batch_evaluated_against_precall_history (fun _ => none) "rice" 1 1 2 2 7 rfl

end AlertEligibility

namespace AgentExec

open AgentModels

lemma transition_pos_store (st : ExecState) (a : Action) (t : ActionStatus)
    (actor notes : String) (h : edgeB a.status t = true) (k : String) :
    (transition st a t actor notes).1.store k
      = if k = a.action_id then some { a with status := t, updated_at := st.time }
        else st.store k := by
  simp [transition, h, auditRecord]

lemma transition_pos_time (st : ExecState) (a : Action) (t : ActionStatus)
    (actor notes : String) (h : edgeB a.status t = true) :
    (transition st a t actor notes).1.time = st.time := by
  simp [transition, h, auditRecord]

lemma transition_pos_ok (st : ExecState) (a : Action) (t : ActionStatus)
    (actor notes : String) (h : edgeB a.status t = true) :
    (transition st a t actor notes).2.1 = true := by
  simp [transition, h]

lemma transition_pos_action (st : ExecState) (a : Action) (t : ActionStatus)
    (actor notes : String) (h : edgeB a.status t = true) :
    (transition st a t actor notes).2.2 = { a with status := t, updated_at := st.time } := by
  simp [transition, h]

lemma simulate_success (a : Action) : (simulate_execution a).success = true := by
  cases h : a.action_type <;> simp [simulate_execution, h]

lemma approve_action_spec (st : ExecState) (id : String) (a : Action) (actor : String)
    (hs : st.store id = some a) (hid : a.action_id = id)
    (hp : a.status = ActionStatus.proposed) :
    (approve_action st id actor).2.success = true ∧
    (approve_action st id actor).1.time = st.time ∧
    (∀ k, (approve_action st id actor).1.store k
      = if k = id then some { a with status := ActionStatus.approved, updated_at := st.time }
        else st.store k) := by
  have hedge : edgeB a.status ActionStatus.approved = true := by rw [hp]; rfl
  refine ⟨?_, ?_, ?_⟩
  · simp only [approve_action, hs, hp]
    simp [transition_pos_ok _ _ _ _ _ hedge]
  · simp only [approve_action, hs, hp]
    simp [transition_pos_time _ _ _ _ _ hedge]
  · intro k
    simp only [approve_action, hs, hp]
    simp [transition_pos_store _ _ _ _ _ hedge, hid]

lemma reject_action_spec (st : ExecState) (id : String) (a : Action) (actor reason : String)
    (hs : st.store id = some a) (hid : a.action_id = id)
    (hp : a.status = ActionStatus.proposed) :
    (reject_action st id actor reason).2.success = true ∧
    (reject_action st id actor reason).1.time = st.time ∧
    (∀ k, (reject_action st id actor reason).1.store k
      = if k = id then some { a with status := ActionStatus.rejected, updated_at := st.time }
        else st.store k) := by
  refine ⟨?_, ?_, ?_⟩
  · simp [reject_action, hs, hp, transition, edgeB, validTransitions, auditRecord]
  · simp [reject_action, hs, hp, transition, edgeB, validTransitions, auditRecord]
  · intro k
    simp [reject_action, hs, hp, transition, edgeB, validTransitions, auditRecord]
    by_cases hk : k = id <;> simp [hk, hid]

lemma execute_action_spec (st : ExecState) (id : String) (a : Action) (actor : String)
    (hs : st.store id = some a) (hid : a.action_id = id)
    (ha : a.status = ActionStatus.approved) :
    (execute_action st id actor).2.success = true ∧
    (execute_action st id actor).2.exec_result
      = some (simulate_execution { a with status := ActionStatus.executing, updated_at := st.time }) ∧
    (execute_action st id actor).1.time = st.time ∧
    (∀ k, (execute_action st id actor).1.store k
      = if k = id then some { a with status := ActionStatus.executed, updated_at := st.time }
        else st.store k) := by
  refine ⟨?_, ?_, ?_, ?_⟩
  · simp [execute_action, hs, ha, transition, edgeB, validTransitions, auditRecord, simulate_success]
  · simp [execute_action, hs, ha, transition, edgeB, validTransitions, auditRecord, simulate_success]
  · simp [execute_action, hs, ha, transition, edgeB, validTransitions, auditRecord, simulate_success]
  · intro k
    simp only [execute_action, hs]
    simp [ha, transition, edgeB, validTransitions, auditRecord, simulate_success]
    by_cases hk : k = id <;> simp [hk, hid]

lemma rollback_action_spec (st : ExecState) (id : String) (a : Action) (actor reason : String)
    (hs : st.store id = some a) (hid : a.action_id = id)
    (hr : a.status = ActionStatus.executing ∨ a.status = ActionStatus.executed) :
    (rollback_action st id actor reason).2.success = true ∧
    (rollback_action st id actor reason).1.time = st.time ∧
    (∀ k, (rollback_action st id actor reason).1.store k
      = if k = id then some { a with status := ActionStatus.rolled_back, updated_at := st.time }
        else st.store k) := by
  have hguard : ¬(a.status ≠ ActionStatus.executing ∧ a.status ≠ ActionStatus.executed) := by
    rcases hr with h | h <;> simp [h]
  have hedge : edgeB a.status ActionStatus.rolled_back = true := by
    rcases hr with h | h <;> rw [h] <;> rfl
  refine ⟨?_, ?_, ?_⟩
  · simp only [rollback_action, hs, if_neg hguard]
    simp [transition_pos_ok _ _ _ _ _ hedge]
  · simp only [rollback_action, hs, if_neg hguard]
    simp [transition_pos_time _ _ _ _ _ hedge]
  · intro k
    simp only [rollback_action, hs, if_neg hguard]
    simp [transition_pos_store _ _ _ _ _ hedge, hid]

lemma approve_action_notfound (st : ExecState) (id actor : String) (hs : st.store id = none) :
    approve_action st id actor
      = (st, { success := false, error := some ("Action " ++ id ++ " not found.") }) := by
  simp [approve_action, hs]

lemma reject_action_notfound (st : ExecState) (id actor reason : String)
    (hs : st.store id = none) :
    reject_action st id actor reason
      = (st, { success := false, error := some ("Action " ++ id ++ " not found.") }) := by
  simp [reject_action, hs]

lemma execute_action_notfound (st : ExecState) (id actor : String) (hs : st.store id = none) :
    execute_action st id actor
      = (st, { success := false, error := some ("Action " ++ id ++ " not found.") }) := by
  simp [execute_action, hs]

lemma rollback_action_notfound (st : ExecState) (id actor reason : String)
    (hs : st.store id = none) :
    rollback_action st id actor reason
      = (st, { success := false, error := some ("Action " ++ id ++ " not found.") }) := by
  simp [rollback_action, hs]

/-- C7: for every `action_id` not present in the store, each of the four
operations returns a structured not-found failure (success false with an error
message, no action, no exec result) and leaves the state — store and audit log
— completely unchanged. -/
theorem claim_C7_not_found_failures (st : ExecState) (op : ExecOp)
    (hs : st.store op.opId = none) :
    (runExecOp st op).1 = st ∧ (runExecOp st op).2.success = false ∧
    (runExecOp st op).2.error.isSome = true ∧
    (runExecOp st op).2.action = none ∧ (runExecOp st op).2.exec_result = none := by
  cases op with
  | approve id actor =>
    simp only [ExecOp.opId] at hs
    simp [runExecOp, approve_action_notfound st id actor hs]
  | reject id actor reason =>
    simp only [ExecOp.opId] at hs
    simp [runExecOp, reject_action_notfound st id actor reason hs]
  | execute id actor =>
    simp only [ExecOp.opId] at hs
    simp [runExecOp, execute_action_notfound st id actor hs]
  | rollback id actor reason =>
    simp only [ExecOp.opId] at hs
    simp [runExecOp, rollback_action_notfound st id actor reason hs]

/-- Witness for C7: rollback of an id absent from the empty store. -/
theorem claim_C7_witness :
    (runExecOp emptyState (ExecOp.rollback "missing" "user" "undo")).1 = emptyState ∧
    (runExecOp emptyState (ExecOp.rollback "missing" "user" "undo")).2.success = false ∧
    (runExecOp emptyState (ExecOp.rollback "missing" "user" "undo")).2.error.isSome = true ∧
    (runExecOp emptyState (ExecOp.rollback "missing" "user" "undo")).2.action = none ∧
    (runExecOp emptyState (ExecOp.rollback "missing" "user" "undo")).2.exec_result = none :=
  claim_C7_not_found_failures emptyState (ExecOp.rollback "missing" "user" "undo") rfl

/-- C1 (amended): for every stored action and every operation whose requested
transition is not in the adjacency table, the call reports failure (success
false with an error message) and leaves the state — the action, the rest of
the store and the audit log — completely unchanged; in particular NO `error`
audit entry is appended.  The per-operation status guards return a structured
failure before `_transition` is reached, so the `error`-recording branch of
the central guard is unreachable through these four operations. -/
theorem claim_C1_invalid_transition_fails_without_audit (st : ExecState) (op : ExecOp)
    (a : Action) (hs : st.store op.opId = some a)
    (hedge : edgeB a.status op.targetStatus = false) :
    (runExecOp st op).1 = st ∧ (runExecOp st op).2.success = false ∧
    (runExecOp st op).2.error.isSome = true := by
  cases op with
  | approve id actor =>
    simp only [ExecOp.opId] at hs
    simp only [ExecOp.targetStatus] at hedge
    have hp : a.status ≠ ActionStatus.proposed := by
      intro h; rw [h] at hedge; exact absurd hedge (by decide)
    simp [runExecOp, approve_action, hs, hp]
  | reject id actor reason =>
    simp only [ExecOp.opId] at hs
    simp only [ExecOp.targetStatus] at hedge
    have hp : a.status ≠ ActionStatus.proposed := by
      intro h; rw [h] at hedge; exact absurd hedge (by decide)
    simp [runExecOp, reject_action, hs, hp]
  | execute id actor =>
    simp only [ExecOp.opId] at hs
    simp only [ExecOp.targetStatus] at hedge
    have hp : a.status ≠ ActionStatus.approved := by
      intro h; rw [h] at hedge; exact absurd hedge (by decide)
    simp [runExecOp, execute_action, hs, hp]
  | rollback id actor reason =>
    simp only [ExecOp.opId] at hs
    simp only [ExecOp.targetStatus] at hedge
    have hp : a.status ≠ ActionStatus.executing ∧ a.status ≠ ActionStatus.executed := by
      constructor <;> intro h <;> rw [h] at hedge <;> exact absurd hedge (by decide)
    simp [runExecOp, rollback_action, hs, hp]

/-- Counterexample to C1 as stated: `reject_action` on an approved action — a
transition (approved → rejected) absent from the adjacency table — reports
failure and leaves the action unchanged, but appends NO audit entry at all
(the final audit log is still empty), not exactly one `error` entry. -/
theorem claim_C1_counterexample :
    (reject_action (sampleState "a1" ActionStatus.approved) "a1" "user" "").2.success = false ∧
    (reject_action (sampleState "a1" ActionStatus.approved) "a1" "user" "").1.auditLog = [] ∧
    (reject_action (sampleState "a1" ActionStatus.approved) "a1" "user" "").1.store "a1"
      = some (sampleAction "a1" ActionStatus.approved) ∧
    ¬((reject_action (sampleState "a1" ActionStatus.approved) "a1" "user" "").1.auditLog.filter
        (fun e => e.event == "error")).length = 1 := by
  decide

/-- Witness for C1 (amended): approving an already executed action. -/
theorem claim_C1_witness :
    (runExecOp (sampleState "a1" ActionStatus.executed) (ExecOp.approve "a1" "user")).1
        = sampleState "a1" ActionStatus.executed ∧
    (runExecOp (sampleState "a1" ActionStatus.executed)
        (ExecOp.approve "a1" "user")).2.success = false ∧
    (runExecOp (sampleState "a1" ActionStatus.executed)
        (ExecOp.approve "a1" "user")).2.error.isSome = true :=
  claim_C1_invalid_transition_fails_without_audit
    (sampleState "a1" ActionStatus.executed) (ExecOp.approve "a1" "user")
    (sampleAction "a1" ActionStatus.executed) (by decide) (by decide)

/-- C8: a freshly created (proposed) stored action can be approved and then
executed: both calls succeed, the stored action ends with status `executed`,
and the execute call returns a present `exec_result` whose success field is
true (the simulated execution path always succeeds). -/
theorem claim_C8_approve_execute_round_trip (st : ExecState) (id : String) (a : Action)
    (actor1 actor2 : String) (hs : st.store id = some a) (hid : a.action_id = id)
    (hp : a.status = ActionStatus.proposed) :
    (approve_action st id actor1).2.success = true ∧
    (execute_action (approve_action st id actor1).1 id actor2).2.success = true ∧
    ((execute_action (approve_action st id actor1).1 id actor2).1.store id).map Action.status
      = some ActionStatus.executed ∧
    ∃ er, (execute_action (approve_action st id actor1).1 id actor2).2.exec_result = some er ∧
      er.success = true := by
  obtain ⟨h1, ht, hst⟩ := approve_action_spec st id a actor1 hs hid hp
  have hs1 : (approve_action st id actor1).1.store id
      = some { a with status := ActionStatus.approved, updated_at := st.time } := by
    rw [hst id]; simp
  obtain ⟨e1, e2, e3, e4⟩ := execute_action_spec (approve_action st id actor1).1 id
    { a with status := ActionStatus.approved, updated_at := st.time } actor2 hs1 hid rfl
  refine ⟨h1, e1, ?_, ⟨_, e2, simulate_success _⟩⟩
  rw [e4 id]; simp

/-- Witness for C8: round trip on a concrete stored proposed action. -/
theorem claim_C8_witness :
    (approve_action (sampleState "a2" ActionStatus.proposed) "a2" "user").2.success = true ∧
    (execute_action (approve_action (sampleState "a2" ActionStatus.proposed) "a2" "user").1
        "a2" "system").2.success = true ∧
    ((execute_action (approve_action (sampleState "a2" ActionStatus.proposed) "a2" "user").1
        "a2" "system").1.store "a2").map Action.status = some ActionStatus.executed ∧
    ∃ er, (execute_action (approve_action (sampleState "a2" ActionStatus.proposed) "a2" "user").1
        "a2" "system").2.exec_result = some er ∧ er.success = true :=
  claim_C8_approve_execute_round_trip (sampleState "a2" ActionStatus.proposed) "a2"
    (sampleAction "a2" ActionStatus.proposed) "user" "system" (by decide) (by decide) (by decide)

lemma Evolves.rfl (s : ExecState) : Evolves s s :=
  fun _ b h => ⟨b, h, Relation.ReflTransGen.refl⟩

lemma Evolves.trans {s1 s2 s3 : ExecState} (h12 : Evolves s1 s2) (h23 : Evolves s2 s3) :
    Evolves s1 s3 := by
  intro k b h
  obtain ⟨b2, hb2, hr2⟩ := h12 k b h
  obtain ⟨b3, hb3, hr3⟩ := h23 k b2 hb2
  exact ⟨b3, hb3, Relation.ReflTransGen.trans hr2 hr3⟩

lemma reach_terminal {s t : ActionStatus}
    (hterm : s = ActionStatus.rejected ∨ s = ActionStatus.rolled_back)
    (h : Reach s t) : t = s := by
  rcases h.cases_head with heq | ⟨u, hsu, -⟩
  · exact heq.symm
  · exfalso
    rcases hterm with h' | h' <;> rw [h'] at hsu <;> revert hsu <;> cases u <;> decide

lemma approve_effect (st : ExecState) (id actor : String) (hwf : StoreWF st) :
    StoreWF (approve_action st id actor).1 ∧ Evolves st (approve_action st id actor).1 := by
  cases hb : st.store id with
  | none =>
    have h1 : (approve_action st id actor).1 = st := by simp [approve_action, hb]
    rw [h1]; exact ⟨hwf, Evolves.rfl st⟩
  | some a =>
    by_cases hp : a.status = ActionStatus.proposed
    · have hid := hwf id a hb
      obtain ⟨-, -, hst⟩ := approve_action_spec st id a actor hb hid hp
      constructor
      · intro k c hc
        rw [hst k] at hc
        by_cases hk : k = id
        · simp [hk] at hc; rw [← hc]; rw [hk]; exact hid
        · simp [hk] at hc; exact hwf k c hc
      · intro k b h
        by_cases hk : k = id
        · subst hk
          have hba : b = a := by rw [h] at hb; exact Option.some_inj.mp hb
          refine ⟨{ a with status := ActionStatus.approved, updated_at := st.time },
            by rw [hst k]; simp, ?_⟩
          rw [hba, hp]
          exact Relation.ReflTransGen.single
            (show Edge ActionStatus.proposed ActionStatus.approved by decide)
        · exact ⟨b, by rw [hst k]; simp [hk]; exact h, Relation.ReflTransGen.refl⟩
    · have h1 : (approve_action st id actor).1 = st := by simp [approve_action, hb, hp]
      rw [h1]; exact ⟨hwf, Evolves.rfl st⟩

lemma reject_effect (st : ExecState) (id actor reason : String) (hwf : StoreWF st) :
    StoreWF (reject_action st id actor reason).1 ∧
    Evolves st (reject_action st id actor reason).1 := by
  cases hb : st.store id with
  | none =>
    have h1 : (reject_action st id actor reason).1 = st := by simp [reject_action, hb]
    rw [h1]; exact ⟨hwf, Evolves.rfl st⟩
  | some a =>
    by_cases hp : a.status = ActionStatus.proposed
    · have hid := hwf id a hb
      obtain ⟨-, -, hst⟩ := reject_action_spec st id a actor reason hb hid hp
      constructor
      · intro k c hc
        rw [hst k] at hc
        by_cases hk : k = id
        · simp [hk] at hc; rw [← hc]; rw [hk]; exact hid
        · simp [hk] at hc; exact hwf k c hc
      · intro k b h
        by_cases hk : k = id
        · subst hk
          have hba : b = a := by rw [h] at hb; exact Option.some_inj.mp hb
          refine ⟨{ a with status := ActionStatus.rejected, updated_at := st.time },
            by rw [hst k]; simp, ?_⟩
          rw [hba, hp]
          exact Relation.ReflTransGen.single
            (show Edge ActionStatus.proposed ActionStatus.rejected by decide)
        · exact ⟨b, by rw [hst k]; simp [hk]; exact h, Relation.ReflTransGen.refl⟩
    · have h1 : (reject_action st id actor reason).1 = st := by simp [reject_action, hb, hp]
      rw [h1]; exact ⟨hwf, Evolves.rfl st⟩

lemma execute_effect (st : ExecState) (id actor : String) (hwf : StoreWF st) :
    StoreWF (execute_action st id actor).1 ∧ Evolves st (execute_action st id actor).1 := by
  cases hb : st.store id with
  | none =>
    have h1 : (execute_action st id actor).1 = st := by simp [execute_action, hb]
    rw [h1]; exact ⟨hwf, Evolves.rfl st⟩
  | some a =>
    by_cases ha : a.status = ActionStatus.approved
    · have hid := hwf id a hb
      obtain ⟨-, -, -, hst⟩ := execute_action_spec st id a actor hb hid ha
      constructor
      · intro k c hc
        rw [hst k] at hc
        by_cases hk : k = id
        · simp [hk] at hc; rw [← hc]; rw [hk]; exact hid
        · simp [hk] at hc; exact hwf k c hc
      · intro k b h
        by_cases hk : k = id
        · subst hk
          have hba : b = a := by rw [h] at hb; exact Option.some_inj.mp hb
          refine ⟨{ a with status := ActionStatus.executed, updated_at := st.time },
            by rw [hst k]; simp, ?_⟩
          rw [hba, ha]
          exact Relation.ReflTransGen.trans
            (Relation.ReflTransGen.single
              (show Edge ActionStatus.approved ActionStatus.executing by decide))
            (Relation.ReflTransGen.single
              (show Edge ActionStatus.executing ActionStatus.executed by decide))
        · exact ⟨b, by rw [hst k]; simp [hk]; exact h, Relation.ReflTransGen.refl⟩
    · have h1 : (execute_action st id actor).1 = st := by simp [execute_action, hb, ha]
      rw [h1]; exact ⟨hwf, Evolves.rfl st⟩

lemma rollback_effect (st : ExecState) (id actor reason : String) (hwf : StoreWF st) :
    StoreWF (rollback_action st id actor reason).1 ∧
    Evolves st (rollback_action st id actor reason).1 := by
  cases hb : st.store id with
  | none =>
    have h1 : (rollback_action st id actor reason).1 = st := by simp [rollback_action, hb]
    rw [h1]; exact ⟨hwf, Evolves.rfl st⟩
  | some a =>
    by_cases hr : a.status = ActionStatus.executing ∨ a.status = ActionStatus.executed
    · have hid := hwf id a hb
      obtain ⟨-, -, hst⟩ := rollback_action_spec st id a actor reason hb hid hr
      constructor
      · intro k c hc
        rw [hst k] at hc
        by_cases hk : k = id
        · simp [hk] at hc; rw [← hc]; rw [hk]; exact hid
        · simp [hk] at hc; exact hwf k c hc
      · intro k b h
        by_cases hk : k = id
        · subst hk
          have hba : b = a := by rw [h] at hb; exact Option.some_inj.mp hb
          refine ⟨{ a with status := ActionStatus.rolled_back, updated_at := st.time },
            by rw [hst k]; simp, ?_⟩
          rw [hba]
          rcases hr with h' | h' <;> rw [h']
          · exact Relation.ReflTransGen.single
              (show Edge ActionStatus.executing ActionStatus.rolled_back by decide)
          · exact Relation.ReflTransGen.single
              (show Edge ActionStatus.executed ActionStatus.rolled_back by decide)
        · exact ⟨b, by rw [hst k]; simp [hk]; exact h, Relation.ReflTransGen.refl⟩
    · have hguard : a.status ≠ ActionStatus.executing ∧ a.status ≠ ActionStatus.executed := by
        constructor <;> intro h' <;> exact hr (by simp [h'])
      have h1 : (rollback_action st id actor reason).1 = st := by
        simp [rollback_action, hb, hguard]
      rw [h1]; exact ⟨hwf, Evolves.rfl st⟩

lemma store_foldl_wf (actions : List Action) :
    ∀ s : String → Option Action, (∀ k a, s k = some a → a.action_id = k) →
    ∀ k a, (actions.foldl (fun s a => fun k => if k = a.action_id then some a else s k) s) k
        = some a → a.action_id = k := by
  induction actions with
  | nil => intro s hwf k a h; exact hwf k a h
  | cons b rest ih =>
    intro s hwf k a h
    refine ih _ ?_ k a h
    intro k' c hc
    by_cases hk : k' = b.action_id
    · simp [hk] at hc; rw [← hc, hk]
    · simp [hk] at hc; exact hwf k' c hc

lemma store_foldl_frame (actions : List Action) :
    ∀ (s : String → Option Action) (k : String), (∀ a ∈ actions, a.action_id ≠ k) →
    (actions.foldl (fun s a => fun k => if k = a.action_id then some a else s k) s) k = s k := by
  induction actions with
  | nil => intro s k _; rfl
  | cons b rest ih =>
    intro s k hne
    have h1 := ih (fun k' => if k' = b.action_id then some b else s k') k
      (fun a ha => hne a (List.mem_cons_of_mem b ha))
    rw [List.foldl_cons, h1]
    have hbk : k ≠ b.action_id := fun h => hne b (List.mem_cons_self b rest) h.symm
    simp [hbk]

lemma store_effect (st : ExecState) (actions : List Action) (hwf : StoreWF st)
    (hok : opOkB st (AgentOp.storeOp actions) = true) :
    StoreWF (store_actions st actions) ∧ Evolves st (store_actions st actions) := by
  simp only [opOkB, List.all_eq_true, Bool.and_eq_true, decide_eq_true_eq] at hok
  constructor
  · intro k a h
    exact store_foldl_wf actions st.store hwf k a h
  · intro k b h
    have hne : ∀ a ∈ actions, a.action_id ≠ k := by
      intro a ha heq
      have h2 := (hok a ha).2
      rw [heq, h] at h2
      cases h2
    refine ⟨b, ?_, Relation.ReflTransGen.refl⟩
    show (store_actions st actions).store k = some b
    rw [show (store_actions st actions).store
        = actions.foldl (fun s a => fun k => if k = a.action_id then some a else s k) st.store
      from rfl]
    rw [store_foldl_frame actions st.store k hne]
    exact h

lemma autoLoop_effect (actor : String) :
    ∀ (pending : List Action) (st : ExecState), StoreWF st →
    StoreWF (autoLoop st actor pending).1 ∧ Evolves st (autoLoop st actor pending).1
  | [], st, hwf => ⟨hwf, Evolves.rfl st⟩
  | action :: rest, st, hwf => by
    by_cases hra : action.requires_approval = true
    · have ih := autoLoop_effect actor rest st hwf
      simpa only [autoLoop, hra, if_true] using ih
    · obtain ⟨hwf1, hev1⟩ := approve_effect st action.action_id actor hwf
      by_cases hsucc : (approve_action st action.action_id actor).2.success = true
      · obtain ⟨hwf2, hev2⟩ :=
          execute_effect (approve_action st action.action_id actor).1 action.action_id actor hwf1
        have ih := autoLoop_effect actor rest
          (execute_action (approve_action st action.action_id actor).1 action.action_id actor).1
          hwf2
        simp only [autoLoop, hra, hsucc, if_true, Bool.false_eq_true, if_false]
        exact ⟨ih.1, (Evolves.trans hev1 hev2).trans ih.2⟩
      · have ih := autoLoop_effect actor rest (approve_action st action.action_id actor).1 hwf1
        simp only [autoLoop, hra, hsucc, Bool.false_eq_true, if_false]
        exact ⟨ih.1, hev1.trans ih.2⟩

lemma runOp_effect (st : ExecState) (op : AgentOp) (hwf : StoreWF st)
    (hok : opOkB st op = true) :
    StoreWF (runOp st op) ∧ Evolves st (runOp st op) := by
  cases op with
  | storeOp actions => exact store_effect st actions hwf hok
  | exec eop =>
    cases eop with
    | approve id actor => exact approve_effect st id actor hwf
    | reject id actor reason => exact reject_effect st id actor reason hwf
    | execute id actor => exact execute_effect st id actor hwf
    | rollback id actor reason => exact rollback_effect st id actor reason hwf
  | autoProcess actions actor => exact autoLoop_effect actor actions st hwf

lemma runOps_effect : ∀ (ops : List AgentOp) (st : ExecState), StoreWF st →
    opsOkB st ops = true →
    StoreWF (runOps st ops) ∧ Evolves st (runOps st ops)
  | [], st, hwf, _ => ⟨hwf, Evolves.rfl st⟩
  | op :: ops, st, hwf, hok => by
    rw [opsOkB, Bool.and_eq_true] at hok
    obtain ⟨h1, h2⟩ := runOp_effect st op hwf hok.1
    obtain ⟨h3, h4⟩ := runOps_effect ops (runOp st op) h1 hok.2
    exact ⟨h3, h2.trans h4⟩

/-- C3: along any sequence of executor entry points — `store_actions` of
freshly created actions, the four single-action operations, and
`auto_approve_and_execute` — every stored action's status only ever moves
along edges of the `_VALID_TRANSITIONS` adjacency (reflexive-transitive
closure), and the status of a `rejected` or `rolled_back` action never
changes again. -/
theorem claim_C3_transitions_follow_adjacency (ops : List AgentOp) (st : ExecState)
    (hwf : StoreWF st) (hok : opsOkB st ops = true) (id : String) (a a' : Action)
    (ha : st.store id = some a) (ha' : (runOps st ops).store id = some a') :
    Reach a.status a'.status ∧
    (a.status = ActionStatus.rejected ∨ a.status = ActionStatus.rolled_back →
      a'.status = a.status) := by
  obtain ⟨-, hev⟩ := runOps_effect ops st hwf hok
  obtain ⟨b', hb', hr⟩ := hev id a ha
  rw [ha'] at hb'
  obtain rfl : a' = b' := Option.some_inj.mp hb'
  exact ⟨hr, fun hterm => reach_terminal hterm hr⟩

lemma sampleState_wf (id : String) (s : ActionStatus) : StoreWF (sampleState id s) := by
  intro k a h
  by_cases hk : k = id
  · subst hk
    simp [sampleState] at h
    rw [← h]
    rfl
  · simp [sampleState, hk] at h

/-- Witness for C3: approving then executing a stored proposed action follows
the adjacency from `proposed` to `executed`. -/
theorem claim_C3_witness :
    Reach ActionStatus.proposed ActionStatus.executed ∧
    (ActionStatus.proposed = ActionStatus.rejected ∨
        ActionStatus.proposed = ActionStatus.rolled_back →
      ActionStatus.executed = ActionStatus.proposed) :=
  claim_C3_transitions_follow_adjacency
    [AgentOp.exec (ExecOp.approve "a3" "user"), AgentOp.exec (ExecOp.execute "a3" "system")]
    (sampleState "a3" ActionStatus.proposed) (sampleState_wf "a3" ActionStatus.proposed)
    (by decide) "a3" (sampleAction "a3" ActionStatus.proposed)
    (sampleAction "a3" ActionStatus.executed) (by decide) (by decide)

lemma autoLoop_spec (actor : String) :
    ∀ (pending : List Action) (st : ExecState),
    (pending.map (fun a => a.action_id)).Nodup →
    (∀ a ∈ pending, a.requires_approval = false →
      ∃ b, st.store a.action_id = some b ∧ b.action_id = a.action_id ∧
        b.status = ActionStatus.proposed) →
    (autoLoop st actor pending).2.2 = pending.filter (fun a => a.requires_approval) ∧
    (autoLoop st actor pending).2.1.length
      = (pending.filter (fun a => !a.requires_approval)).length ∧
    (∀ a ∈ pending, a.requires_approval = false →
      (∃ e ∈ (autoLoop st actor pending).2.1,
        e.action_id = a.action_id ∧ e.exec_success = true) ∧
      ((autoLoop st actor pending).1.store a.action_id).map Action.status
        = some ActionStatus.executed) ∧
    (∀ k, (∀ a ∈ pending, a.action_id ≠ k) →
      (autoLoop st actor pending).1.store k = st.store k)
  | [], st, _, _ => ⟨rfl, rfl, by simp, fun _ _ => rfl⟩
  | action :: rest, st, hnd, hp => by
    rw [List.map_cons, List.nodup_cons] at hnd
    obtain ⟨hhead, htail⟩ := hnd
    by_cases hra : action.requires_approval = true
    · have hp' : ∀ a ∈ rest, a.requires_approval = false →
          ∃ b, st.store a.action_id = some b ∧ b.action_id = a.action_id ∧
            b.status = ActionStatus.proposed :=
        fun a ha hf => hp a (List.mem_cons_of_mem action ha) hf
      obtain ⟨ih1, ih2, ih3, ih4⟩ := autoLoop_spec actor rest st htail hp'
      simp only [autoLoop, hra, if_true]
      refine ⟨?_, ?_, ?_, ?_⟩
      · rw [List.filter_cons_of_pos (by simp [hra]), ih1]
      · rw [List.filter_cons_of_neg (by simp [hra]), ih2]
      · intro a ha hf
        rcases List.mem_cons.mp ha with rfl | ha'
        · rw [hra] at hf; cases hf
        · exact ih3 a ha' hf
      · intro k hne
        exact ih4 k (fun a ha => hne a (List.mem_cons_of_mem action ha))
    · rw [Bool.not_eq_true] at hra
      obtain ⟨b, hsb, hbid, hbp⟩ := hp action (List.mem_cons_self action rest) hra
      obtain ⟨hap1, hapt, haps⟩ := approve_action_spec st action.action_id b actor hsb hbid hbp
      have hs1 : (approve_action st action.action_id actor).1.store action.action_id
          = some { b with status := ActionStatus.approved, updated_at := st.time } := by
        rw [haps action.action_id]; simp
      obtain ⟨hex1, hex2, hext, hexs⟩ :=
        execute_action_spec (approve_action st action.action_id actor).1 action.action_id
          { b with status := ActionStatus.approved, updated_at := st.time } actor hs1 hbid rfl
      have hne_rest : ∀ a ∈ rest, a.action_id ≠ action.action_id := by
        intro a ha heq
        exact hhead (heq ▸ List.mem_map_of_mem (fun a => a.action_id) ha)
      have hp2 : ∀ a ∈ rest, a.requires_approval = false →
          ∃ c, (execute_action (approve_action st action.action_id actor).1
              action.action_id actor).1.store a.action_id = some c ∧
            c.action_id = a.action_id ∧ c.status = ActionStatus.proposed := by
        intro a ha hf
        obtain ⟨c, hc, hcid, hcp⟩ := hp a (List.mem_cons_of_mem action ha) hf
        refine ⟨c, ?_, hcid, hcp⟩
        rw [hexs a.action_id, if_neg (hne_rest a ha), haps a.action_id,
          if_neg (hne_rest a ha)]
        exact hc
      obtain ⟨ih1, ih2, ih3, ih4⟩ := autoLoop_spec actor rest
        (execute_action (approve_action st action.action_id actor).1 action.action_id actor).1
        htail hp2
      simp only [autoLoop, hra, Bool.false_eq_true, if_false, hap1, if_true]
      refine ⟨?_, ?_, ?_, ?_⟩
      · rw [List.filter_cons_of_neg (by simp [hra]), ih1]
      · rw [List.filter_cons_of_pos (by simp [hra]), List.length_cons, ih2,
          List.length_cons]
      · intro a ha hf
        rcases List.mem_cons.mp ha with rfl | ha'
        · constructor
          · exact ⟨_, List.mem_cons_self _ _, rfl, hex1⟩
          · rw [ih4 a.action_id (fun a' ha' => hne_rest a' ha'),
              hexs a.action_id]
            simp
        · obtain ⟨⟨e, he, heid, hesucc⟩, hstore⟩ := ih3 a ha' hf
          exact ⟨⟨e, List.mem_cons_of_mem _ he, heid, hesucc⟩, hstore⟩
      · intro k hne
        rw [ih4 k (fun a ha => hne a (List.mem_cons_of_mem action ha)),
          hexs k, if_neg (fun h => hne action (List.mem_cons_self action rest) h.symm),
          haps k, if_neg (fun h => hne action (List.mem_cons_self action rest) h.symm)]

/-- C6: scenario — a draft_po action with payload quantity 50 has
`requires_approval = false`, and `auto_approve_and_execute` on its singleton
list yields 1 auto_processed entry, 0 needs_review entries and final stored
status `executed`; in general, every input action with `requires_approval`
true is bucketed into needs_review, and every input action with
`requires_approval` false (stored as proposed, ids distinct) is approved then
executed, ending `executed` with a successful auto_processed entry. -/
theorem claim_C6_auto_approve_and_execute_buckets (st : ExecState)
    (actions : List Action) (actor : String)
    (hnd : (actions.map (fun a => a.action_id)).Nodup)
    (hprop : ∀ a ∈ actions, a.requires_approval = false →
      ∃ b, st.store a.action_id = some b ∧ b.action_id = a.action_id ∧
        b.status = ActionStatus.proposed) :
    (create_action "id-1" 0 ActionType.draft_po { quantity := some 50 } "Purchasing" "low"
      "Draft PO" "why").requires_approval = false ∧
    (auto_approve_and_execute
        (store_actions emptyState
          [create_action "id-1" 0 ActionType.draft_po { quantity := some 50 } "Purchasing"
            "low" "Draft PO" "why"])
        [create_action "id-1" 0 ActionType.draft_po { quantity := some 50 } "Purchasing" "low"
          "Draft PO" "why"]
        "auto-approve").2.auto_processed.length = 1 ∧
    (auto_approve_and_execute
        (store_actions emptyState
          [create_action "id-1" 0 ActionType.draft_po { quantity := some 50 } "Purchasing"
            "low" "Draft PO" "why"])
        [create_action "id-1" 0 ActionType.draft_po { quantity := some 50 } "Purchasing" "low"
          "Draft PO" "why"]
        "auto-approve").2.needs_review.length = 0 ∧
    ((auto_approve_and_execute
        (store_actions emptyState
          [create_action "id-1" 0 ActionType.draft_po { quantity := some 50 } "Purchasing"
            "low" "Draft PO" "why"])
        [create_action "id-1" 0 ActionType.draft_po { quantity := some 50 } "Purchasing" "low"
          "Draft PO" "why"]
        "auto-approve").1.store "id-1").map Action.status = some ActionStatus.executed ∧
    (auto_approve_and_execute st actions actor).2.needs_review
      = actions.filter (fun a => a.requires_approval) ∧
    (auto_approve_and_execute st actions actor).2.auto_processed.length
      = (actions.filter (fun a => !a.requires_approval)).length ∧
    ∀ a ∈ actions, a.requires_approval = false →
      (∃ e ∈ (auto_approve_and_execute st actions actor).2.auto_processed,
        e.action_id = a.action_id ∧ e.exec_success = true) ∧
      ((auto_approve_and_execute st actions actor).1.store a.action_id).map Action.status
        = some ActionStatus.executed := by
  obtain ⟨g1, g2, g3, g4⟩ := autoLoop_spec actor actions st hnd hprop
  exact ⟨by decide, by decide, by decide, by decide, g1, g2, g3⟩

/-- Witness for C6: one auto-approvable create_task action, stored and then
batch-processed. -/
theorem claim_C6_witness :
    (auto_approve_and_execute
        (store_actions emptyState
          [create_action "b1" 0 ActionType.create_task {} "Kitchen" "low" "i" "r"])
        [create_action "b1" 0 ActionType.create_task {} "Kitchen" "low" "i" "r"]
        "autopilot").2.needs_review
      = List.filter (fun a => a.requires_approval)
          [create_action "b1" 0 ActionType.create_task {} "Kitchen" "low" "i" "r"] ∧
    (auto_approve_and_execute
        (store_actions emptyState
          [create_action "b1" 0 ActionType.create_task {} "Kitchen" "low" "i" "r"])
        [create_action "b1" 0 ActionType.create_task {} "Kitchen" "low" "i" "r"]
        "autopilot").2.auto_processed.length
      = (List.filter (fun a => !a.requires_approval)
          [create_action "b1" 0 ActionType.create_task {} "Kitchen" "low" "i" "r"]).length :=
  ⟨(claim_C6_auto_approve_and_execute_buckets
      (store_actions emptyState
        [create_action "b1" 0 ActionType.create_task {} "Kitchen" "low" "i" "r"])
      [create_action "b1" 0 ActionType.create_task {} "Kitchen" "low" "i" "r"]
      "autopilot" (by simp)
      (by
        intro a ha hf
        rw [List.mem_singleton] at ha
        subst ha
        exact ⟨create_action "b1" 0 ActionType.create_task {} "Kitchen" "low" "i" "r",
          by decide, rfl, rfl⟩)).2.2.2.2.1,
   (claim_C6_auto_approve_and_execute_buckets
      (store_actions emptyState
        [create_action "b1" 0 ActionType.create_task {} "Kitchen" "low" "i" "r"])
      [create_action "b1" 0 ActionType.create_task {} "Kitchen" "low" "i" "r"]
      "autopilot" (by simp)
      (by
        intro a ha hf
        rw [List.mem_singleton] at ha
        subst ha
        exact ⟨create_action "b1" 0 ActionType.create_task {} "Kitchen" "low" "i" "r",
          by decide, rfl, rfl⟩)).2.2.2.2.2.1⟩

end AgentExec
